import Mathlib

/-!
# Verification of the quest assembly and validation engine

Shallow embedding of the quest authoring engine: the form-level transform in
`QuestBuilderForm.tsx`, the `QuestBuilder` class in `lib/builders/QuestBuilder.ts`,
and models of the external `scum-quest-library` collaborators (the Zod
`QuestSchema`, the `RewardBuilder` and `ConditionBuilder` classes, and the JSON
serialization), which are not part of this repository and are modelled from the
specification.  JavaScript numbers are modelled as `Int`; JavaScript truthiness
for numbers is `≠ 0`, for strings `≠ ""`, for `undefined`/missing values `none`.
-/

/-- Discriminator for condition fragments in the authoring state
(`conditionSchema.type` in `QuestBuilderForm.tsx`). -/
inductive CondType where
  | Fetch
  | Elimination
  | Interaction
deriving DecidableEq, Repr

/-- An item entry of a condition fragment (`conditionItemSchema`): `name`, `amount`. -/
structure ConditionItemForm where
  name : String
  amount : Int
deriving DecidableEq, Repr

/-- A condition fragment of the authoring state (`conditionSchema`). -/
structure ConditionForm where
  type : CondType
  sequenceIndex : Int
  items : Option (List ConditionItemForm) := none
  interactionObject : Option String := none
  canBeAutoCompleted : Option Bool := none
  trackingCaption : Option String := none
deriving DecidableEq, Repr

/-- A skill entry of a reward fragment (`skillRewardSchema`): `skill`, `experience`. -/
structure SkillRewardForm where
  skill : String
  experience : Int
deriving DecidableEq, Repr

/-- A trade-deal entry of a reward fragment (`tradeDealSchema`). -/
structure TradeDealForm where
  item : String
  price : Option Int := none
  amount : Option Int := none
  fame : Option Int := none
  allowExcluded : Option Bool := none
deriving DecidableEq, Repr

/-- A reward fragment of the authoring state (`rewardSchema`). -/
structure RewardForm where
  currencyNormal : Option Int := none
  currencyGold : Option Int := none
  fame : Option Int := none
  skills : Option (List SkillRewardForm) := none
  tradeDeals : Option (List TradeDealForm) := none
deriving DecidableEq, Repr

/-- The authoring state snapshot read by the transform (`questFormSchema`,
the `watchedValues` of the form). -/
structure QuestFormData where
  AssociatedNpc : String
  Tier : Int
  Title : String
  Description : String
  TimeLimitHours : Option Int := none
  RewardPool : List RewardForm
  Conditions : Option (List ConditionForm) := none
deriving DecidableEq, Repr

/-- A skill entry of a built reward pool.  Modelled from the spec: §3
`skills: sequence of \x7bskill: enum, experience: positive number\x7d` of the
external library's RewardPool shape (field names as read by the pre-fill path:
`Skill`, `Experience`). -/
structure SkillReward where
  Skill : String
  Experience : Int
deriving DecidableEq, Repr

/-- A trade deal of a built reward pool.  Modelled from the spec: §3
trade deals carry `item`, optional `price`/`amount`/`fame`, `allowExcluded`
(field names as read by the pre-fill path). -/
structure TradeDeal where
  Item : String
  Price : Option Int := none
  Amount : Option Int := none
  Fame : Option Int := none
  AllowExcluded : Option Bool := none
deriving DecidableEq, Repr

/-- One built reward pool entry.  Modelled from the spec: §3 `RewardPool`
(optional currencies and fame, optional skill and trade-deal sequences; an
untouched builder leaves every field absent). -/
structure RewardPoolEntry where
  CurrencyNormal : Option Int := none
  CurrencyGold : Option Int := none
  Fame : Option Int := none
  Skills : Option (List SkillReward) := none
  TradeDeals : Option (List TradeDeal) := none
deriving DecidableEq, Repr

/-- A built condition.  Modelled from the spec: §3 discriminated union over
Fetch/Elimination/Interaction, each carrying `sequenceIndex`,
`canBeAutoCompleted` and an optional `trackingCaption`.  Field shapes follow
the source's reads of library conditions: Fetch items are name/amount pairs
(`extractConditionItems` exposes the names), Elimination carries
`TargetCharacters` (names) plus a single optional `Amount`, Interaction an
optional interaction object. -/
inductive Condition where
  | fetch (sequenceIndex : Int) (canBeAutoCompleted : Bool)
      (trackingCaption : Option String) (items : List ConditionItemForm)
  | elimination (sequenceIndex : Int) (canBeAutoCompleted : Bool)
      (trackingCaption : Option String) (targetCharacters : List String)
      (amount : Option Int)
  | interaction (sequenceIndex : Int) (canBeAutoCompleted : Bool)
      (trackingCaption : Option String) (interactionObject : Option String)
deriving DecidableEq, Repr

/-- The validated Quest (output of a successful Schema parse), §3 of the spec. -/
structure Quest where
  AssociatedNpc : String
  Tier : Int
  Title : String
  Description : String
  TimeLimitHours : Option Int := none
  RewardPool : List RewardPoolEntry
  Conditions : List Condition
deriving DecidableEq, Repr

/-- The accumulating `Partial<Quest>` draft held by `QuestBuilder`
(`private quest: Partial<Quest> = \x7b RewardPool: [], Conditions: [] \x7d`). -/
structure QuestDraft where
  AssociatedNpc : Option String := none
  Tier : Option Int := none
  Title : Option String := none
  Description : Option String := none
  TimeLimitHours : Option Int := none
  RewardPool : List RewardPoolEntry := []
  Conditions : List Condition := []
deriving DecidableEq, Repr

/-- One Schema validation issue: a field path and a message (Zod issue). -/
structure SchemaIssue where
  path : List String
  message : String
deriving DecidableEq, Repr

/-- The transform's output surfaced to the presentation layer:
the built quest (or none) plus the `validationErrors` strings. -/
structure QuestResult where
  quest : Option Quest
  errors : List String
deriving DecidableEq, Repr

/-! ## Library builders (external collaborators, modelled from the spec §4.1) -/

/-- State of the library `ConditionBuilder`.  Modelled from the spec: §4.1,
polymorphic over condition kind, selected once via `asFetch`/`asElimination`/
`asInteraction`; `withSequenceIndex`, `autoComplete`, `withCaption` are
kind-agnostic; `requireItems`/`eliminateTargets` append. -/
structure CondBuilderState where
  kind : Option CondType := none
  sequenceIndex : Int := 0
  canBeAutoCompleted : Bool := false
  trackingCaption : Option String := none
  items : List ConditionItemForm := []
  targetCharacters : List String := []
  amount : Option Int := none
  interactionObject : Option String := none
deriving DecidableEq, Repr

namespace CondBuilderState

/-- `asFetch()`: selects the Fetch kind.  Modelled from the spec (§4.1). -/
def asFetch (b : CondBuilderState) : CondBuilderState := { b with kind := some CondType.Fetch }

/-- `asElimination()`: selects the Elimination kind.  Modelled from the spec (§4.1). -/
def asElimination (b : CondBuilderState) : CondBuilderState := { b with kind := some CondType.Elimination }

/-- `asInteraction()`: selects the Interaction kind.  Modelled from the spec (§4.1). -/
def asInteraction (b : CondBuilderState) : CondBuilderState := { b with kind := some CondType.Interaction }

/-- `withSequenceIndex(i)`.  Modelled from the spec (§4.1). -/
def withSequenceIndex (b : CondBuilderState) (i : Int) : CondBuilderState := { b with sequenceIndex := i }

/-- `autoComplete()`.  Modelled from the spec (§4.1). -/
def autoComplete (b : CondBuilderState) : CondBuilderState := { b with canBeAutoCompleted := true }

/-- `withCaption(c)`.  Modelled from the spec (§4.1). -/
def withCaption (b : CondBuilderState) (c : String) : CondBuilderState := { b with trackingCaption := some c }

/-- `requireItems(names, amount)`: appends one item per name.  Modelled from the
spec (§4.1, repeated calls to collection-producing methods append). -/
def requireItems (b : CondBuilderState) (names : List String) (amount : Int) : CondBuilderState :=
  { b with items := b.items ++ names.map (fun n => ConditionItemForm.mk n amount) }

/-- `eliminateTargets(names, amount)`: appends the target names and records the
amount.  Modelled from the spec (§4.1) and the source's reads of elimination
conditions (`TargetCharacters`, `Amount`). -/
def eliminateTargets (b : CondBuilderState) (names : List String) (amount : Int) : CondBuilderState :=
  { b with targetCharacters := b.targetCharacters ++ names, amount := some amount }

/-- `build()`: returns the tagged Condition fragment for the selected kind.
Modelled from the spec (§4.1); the kind is always selected before any other
call at every call site (`addFetchCondition` etc. in `QuestBuilder.ts`), so
the no-kind branch is unreachable there and defaults to the Fetch projection. -/
def build (b : CondBuilderState) : Condition :=
  match b.kind with
  | some CondType.Elimination =>
      Condition.elimination b.sequenceIndex b.canBeAutoCompleted b.trackingCaption
        b.targetCharacters b.amount
  | some CondType.Interaction =>
      Condition.interaction b.sequenceIndex b.canBeAutoCompleted b.trackingCaption
        b.interactionObject
  | _ =>
      Condition.fetch b.sequenceIndex b.canBeAutoCompleted b.trackingCaption b.items

end CondBuilderState

namespace RewardBuilderState

/-- `currency(normal?, gold?, fame?)` of the library `RewardBuilder`: records
each provided value.  Modelled from the spec (§4.1). -/
def currency (b : RewardPoolEntry) (normal gold fame : Option Int) : RewardPoolEntry :=
  { b with
    CurrencyNormal := match normal with | some v => some v | none => b.CurrencyNormal
    CurrencyGold := match gold with | some v => some v | none => b.CurrencyGold
    Fame := match fame with | some v => some v | none => b.Fame }

/-- `addSkill(skill, experience)`: appends a skill entry.  Modelled from the
spec (§4.1, repeated calls append). -/
def addSkill (b : RewardPoolEntry) (skill : String) (experience : Int) : RewardPoolEntry :=
  { b with Skills := some (b.Skills.getD [] ++ [SkillReward.mk skill experience]) }

/-- `addTradeDeal(item, opts)`: appends a trade deal.  Modelled from the spec
(§4.1); `build()` returns the fragment verbatim, so the builder state is the
fragment itself. -/
def addTradeDeal (b : RewardPoolEntry) (item : String)
    (price amount fame : Option Int) (allowExcluded : Option Bool) : RewardPoolEntry :=
  { b with TradeDeals := some (b.TradeDeals.getD [] ++
      [{ Item := item, Price := price, Amount := amount, Fame := fame,
         AllowExcluded := allowExcluded }]) }

end RewardBuilderState

/-! ## The Schema (external collaborator, modelled from the spec §3/§7) -/

/-- JavaScript `String.prototype.trim`: strips leading and trailing
whitespace (modelled on the character list, over the common whitespace
characters). -/
def jsWhitespace (c : Char) : Bool :=
  c = ' ' || c = '\t' || c = '\n' || c = '\r'

/-- JavaScript string trim on the underlying character list. -/
def jsTrim (s : String) : String :=
  String.mk (((s.data.dropWhile jsWhitespace).reverse.dropWhile jsWhitespace).reverse)

/-- Truthy-and-positive test on an optional number: JavaScript
`x && x > 0` (`undefined` and `0` are falsy). -/
def optPos (o : Option Int) : Bool :=
  match o with
  | some v => decide (0 < v)
  | none => false

/-- An optional number is absent or non-negative. -/
def optGE0 (o : Option Int) : Bool :=
  match o with
  | some v => decide (0 ≤ v)
  | none => true

/-- An optional number is absent or at least one. -/
def optGE1 (o : Option Int) : Bool :=
  match o with
  | some v => decide (1 ≤ v)
  | none => true

/-- Tier constraint.  Modelled from the spec: §3 `tier: Tier (1|2|3)`. -/
def tierValid (t : Int) : Bool := t = 1 || t = 2 || t = 3

/-- Optional time limit constraint.  Modelled from the spec: §3
`timeLimitHours: optional positive number`. -/
def timeLimitValid (o : Option Int) : Bool :=
  match o with
  | some v => decide (0 < v)
  | none => true

/-- Skill entry constraint.  Modelled from the spec: §3 skills carry an enum
skill and a positive experience (the enum membership itself is abstracted:
any non-empty name is accepted, since the spec does not enumerate it). -/
def skillRewardValid (sk : SkillReward) : Bool :=
  sk.Skill ≠ "" && decide (1 ≤ sk.Experience)

/-- Trade deal constraint.  Modelled from the spec: §3 `item: non-empty
string, price?: non-negative, amount?: positive, fame?: non-negative`. -/
def tradeDealValid (td : TradeDeal) : Bool :=
  td.Item ≠ "" && optGE0 td.Price && optGE1 td.Amount && optGE0 td.Fame

/-- Per-entry reward pool constraint.  Modelled from the spec: §3 currencies
and fame optional non-negative, every skill and trade deal well-formed. -/
def rewardEntryValid (rp : RewardPoolEntry) : Bool :=
  optGE0 rp.CurrencyNormal && optGE0 rp.CurrencyGold && optGE0 rp.Fame &&
    (rp.Skills.getD []).all skillRewardValid &&
    (rp.TradeDeals.getD []).all tradeDealValid

/-- Per-condition constraint.  Modelled from the spec: §3 each condition has a
non-negative `sequenceIndex`; Fetch items have non-empty names and positive
amounts; Elimination target names are non-empty and the amount, when present,
positive; Interaction requires a non-empty `interactionObject`. -/
def conditionValid (c : Condition) : Bool :=
  match c with
  | Condition.fetch si _ _ items =>
      decide (0 ≤ si) && items.all (fun i => i.name ≠ "" && decide (1 ≤ i.amount))
  | Condition.elimination si _ _ tc amt =>
      decide (0 ≤ si) && tc.all (fun n => n ≠ "") && optGE1 amt
  | Condition.interaction si _ _ obj =>
      decide (0 ≤ si) && obj.getD "" ≠ ""

/-- All Schema constraints on a fully-assembled Quest.  Modelled from the
spec: §3 (the NPC enum membership is abstracted as always satisfied). -/
def questValid (q : Quest) : Bool :=
  tierValid q.Tier && jsTrim q.Title ≠ "" && jsTrim q.Description ≠ "" &&
    timeLimitValid q.TimeLimitHours &&
    decide (0 < q.RewardPool.length) && q.RewardPool.all rewardEntryValid &&
    decide (0 < q.Conditions.length) && q.Conditions.all conditionValid

/-- Issues for the elements of an array field, one per invalid element, with
the element index on the path.  Modelled from the spec: §7 Schema errors carry
the field path of each violated constraint, in the Schema's own order. -/
def elemIssues (key : String) (valid : α → Bool) (msg : String) :
    Nat → List α → List SchemaIssue
  | _, [] => []
  | i, x :: xs =>
      (if valid x then [] else [SchemaIssue.mk [key, toString i] msg]) ++
        elemIssues key valid msg (i + 1) xs

/-- The Schema's issue list for a draft, in field order.  Modelled from the
spec: §3 field constraints and §7 error reporting (`QuestSchema.safeParse`).
The NPC enum membership is abstracted (presence only). -/
def schemaIssues (d : QuestDraft) : List SchemaIssue :=
  (match d.AssociatedNpc with
    | none => [SchemaIssue.mk ["AssociatedNpc"] "Required"]
    | some _ => []) ++
  (match d.Tier with
    | none => [SchemaIssue.mk ["Tier"] "Required"]
    | some t => if tierValid t then [] else
        [SchemaIssue.mk ["Tier"] "Invalid literal value, expected 1 | 2 | 3"]) ++
  (match d.Title with
    | none => [SchemaIssue.mk ["Title"] "Required"]
    | some t => if jsTrim t ≠ "" then [] else
        [SchemaIssue.mk ["Title"] "String must contain at least 1 character(s)"]) ++
  (match d.Description with
    | none => [SchemaIssue.mk ["Description"] "Required"]
    | some t => if jsTrim t ≠ "" then [] else
        [SchemaIssue.mk ["Description"] "String must contain at least 1 character(s)"]) ++
  (if timeLimitValid d.TimeLimitHours then [] else
    [SchemaIssue.mk ["TimeLimitHours"] "Number must be greater than 0"]) ++
  (if d.RewardPool.length = 0 then
    [SchemaIssue.mk ["RewardPool"] "Array must contain at least 1 element(s)"] else []) ++
  elemIssues "RewardPool" rewardEntryValid "Invalid reward pool entry" 0 d.RewardPool ++
  (if d.Conditions.length = 0 then
    [SchemaIssue.mk ["Conditions"] "Array must contain at least 1 element(s)"] else []) ++
  elemIssues "Conditions" conditionValid "Invalid condition" 0 d.Conditions

/-- Reading the accumulated draft back as a Quest once the Schema accepted it
(the parsed value is the draft's own data).  The defaults are unreachable when
`schemaIssues` is empty. -/
def questOfDraft (d : QuestDraft) : Quest :=
  { AssociatedNpc := d.AssociatedNpc.getD ""
    Tier := d.Tier.getD 1
    Title := d.Title.getD ""
    Description := d.Description.getD ""
    TimeLimitHours := d.TimeLimitHours
    RewardPool := d.RewardPool
    Conditions := d.Conditions }

/-- `QuestSchema.parse` on the draft: the built Quest, or the issue list.
Modelled from the spec (§2: the Schema supplies validate/parse operations). -/
def schemaParseDraft (d : QuestDraft) : Except (List SchemaIssue) Quest :=
  match schemaIssues d with
  | [] => Except.ok (questOfDraft d)
  | issues => Except.error issues

/-- The single `message` string carried by the thrown Schema error (the
aggregate rendering of all issues).  Modelled from the spec: §7, the Schema
failure surfaces as one thrown error; its message serializes the whole issue
list, it is not one entry per issue. -/
def zodErrorMessage (issues : List SchemaIssue) : String :=
  "[" ++ String.intercalate ", " (issues.map (fun i =>
    "\x7b \"path\": [" ++ String.intercalate ", " (i.path.map (fun p => "\"" ++ p ++ "\"")) ++
      "], \"message\": \"" ++ i.message ++ "\" \x7d")) ++ "]"

/-! ## QuestBuilder (from `src/src/lib/builders/QuestBuilder.ts`) -/

namespace QuestBuilder

/-- `withNPC(npc)` (`QuestBuilder.ts`). -/
def withNPC (d : QuestDraft) (npc : String) : QuestDraft := { d with AssociatedNpc := some npc }

/-- `withTier(tier)` (`QuestBuilder.ts`). -/
def withTier (d : QuestDraft) (tier : Int) : QuestDraft := { d with Tier := some tier }

/-- `withTitle(title)` (`QuestBuilder.ts`). -/
def withTitle (d : QuestDraft) (title : String) : QuestDraft := { d with Title := some title }

/-- `withDescription(description)` (`QuestBuilder.ts`). -/
def withDescription (d : QuestDraft) (description : String) : QuestDraft :=
  { d with Description := some description }

/-- `withTimeLimit(hours)` (`QuestBuilder.ts`). -/
def withTimeLimit (d : QuestDraft) (hours : Int) : QuestDraft :=
  { d with TimeLimitHours := some hours }

/-- `addReward(fn)`: runs the configurator on a fresh `RewardBuilder` and
appends the finished fragment (`QuestBuilder.ts`). -/
def addReward (d : QuestDraft) (fn : RewardPoolEntry → RewardPoolEntry) : QuestDraft :=
  { d with RewardPool := d.RewardPool ++ [fn {}] }

/-- `addFetchCondition(fn)`: fresh builder seeded with `asFetch`, configured,
built, appended (`QuestBuilder.ts`). -/
def addFetchCondition (d : QuestDraft) (fn : CondBuilderState → CondBuilderState) : QuestDraft :=
  { d with Conditions := d.Conditions ++ [(fn (CondBuilderState.asFetch {})).build] }

/-- `addEliminationCondition(fn)` (`QuestBuilder.ts`). -/
def addEliminationCondition (d : QuestDraft) (fn : CondBuilderState → CondBuilderState) : QuestDraft :=
  { d with Conditions := d.Conditions ++ [(fn (CondBuilderState.asElimination {})).build] }

/-- `addInteractionCondition(fn)` (`QuestBuilder.ts`). -/
def addInteractionCondition (d : QuestDraft) (fn : CondBuilderState → CondBuilderState) : QuestDraft :=
  { d with Conditions := d.Conditions ++ [(fn (CondBuilderState.asInteraction {})).build] }

/-- `validate()`: `QuestSchema.safeParse`, mapping each issue to
`issue.path.join(".") + ": " + issue.message` (`QuestBuilder.ts` lines 91-102).
Returns the success flag and the error list (empty on success). -/
def validate (d : QuestDraft) : Bool × List String :=
  match schemaParseDraft d with
  | Except.ok _ => (true, [])
  | Except.error issues =>
      (false, issues.map (fun i => String.intercalate "." i.path ++ ": " ++ i.message))

end QuestBuilder

/-! ## The Sparse-State Filter and the Authoring-State Transform
(from `QuestBuilderForm.tsx`, the build effect at lines 193-398) -/

/-- The reward-fragment filter (`hasAnything`, `QuestBuilderForm.tsx` lines
230-236): `(currencyNormal && currencyNormal > 0) || (currencyGold && ... > 0)
|| (fame && ... > 0) || (skills && skills.length > 0) ||
(tradeDeals && tradeDeals.length > 0)`. -/
def hasAnything (r : RewardForm) : Bool :=
  optPos r.currencyNormal || optPos r.currencyGold || optPos r.fame ||
    decide (0 < (r.skills.getD []).length) ||
    decide (0 < (r.tradeDeals.getD []).length)

/-- Numeric projection `x && x > 0 ? x : undefined` used for the currency and
trade price/amount projections (`QuestBuilderForm.tsx` lines 251-257, 272-277). -/
def projPos (o : Option Int) : Option Int :=
  match o with
  | some v => if 0 < v then some v else none
  | none => none

/-- Trade-deal fame projection `fame && fame >= 0 ? fame : undefined`
(`QuestBuilderForm.tsx` lines 278-279): `0` is falsy, so it is omitted. -/
def projTradeFame (o : Option Int) : Option Int :=
  match o with
  | some v => if v ≠ 0 && decide (0 ≤ v) then some v else none
  | none => none

/-- `hasCurrency` gate of the reward configurator
(`QuestBuilderForm.tsx` lines 244-247). -/
def hasCurrency (r : RewardForm) : Bool :=
  optPos r.currencyNormal || optPos r.currencyGold || optPos r.fame

/-- The reward configurator passed to `addReward`
(`QuestBuilderForm.tsx` lines 240-286): currency only when some currency value
is positive (each value projected), skills only with a named skill and positive
experience, trade deals only with a non-blank item. -/
def configureReward (r : RewardForm) (b : RewardPoolEntry) : RewardPoolEntry :=
  let b1 := if hasCurrency r then
      RewardBuilderState.currency b (projPos r.currencyNormal) (projPos r.currencyGold)
        (projPos r.fame)
    else b
  let b2 := (r.skills.getD []).foldl (fun acc sk =>
      if sk.skill ≠ "" && decide (0 < sk.experience) then
        RewardBuilderState.addSkill acc sk.skill sk.experience
      else acc) b1
  (r.tradeDeals.getD []).foldl (fun acc td =>
      if jsTrim td.item ≠ "" then
        RewardBuilderState.addTradeDeal acc td.item (projPos td.price) (projPos td.amount)
          (projTradeFame td.fame) td.allowExcluded
      else acc) b2

/-- The finished reward fragment built from one qualifying reward form
(a fresh `RewardBuilder` run through `configureReward`). -/
def buildRewardFragment (r : RewardForm) : RewardPoolEntry := configureReward r {}

/-- The Fetch condition configurator (`QuestBuilderForm.tsx` lines 309-321). -/
def configureFetch (c : ConditionForm) (b : CondBuilderState) : CondBuilderState :=
  let b1 := b.withSequenceIndex c.sequenceIndex
  let b2 := (c.items.getD []).foldl (fun acc i => acc.requireItems [i.name] i.amount) b1
  let b3 := if c.canBeAutoCompleted.getD false then b2.autoComplete else b2
  if c.trackingCaption.getD "" ≠ "" then b3.withCaption (c.trackingCaption.getD "") else b3

/-- The Elimination condition configurator (`QuestBuilderForm.tsx` lines 327-342). -/
def configureElimination (c : ConditionForm) (b : CondBuilderState) : CondBuilderState :=
  let b1 := b.withSequenceIndex c.sequenceIndex
  let b2 := (c.items.getD []).foldl (fun acc i => acc.eliminateTargets [i.name] i.amount) b1
  let b3 := if c.canBeAutoCompleted.getD false then b2.autoComplete else b2
  if c.trackingCaption.getD "" ≠ "" then b3.withCaption (c.trackingCaption.getD "") else b3

/-- The Interaction condition configurator (`QuestBuilderForm.tsx` lines
347-358): only sequence index, auto-complete flag and caption are set; the
fragment's `interactionObject` is never transferred (the source comments that
there is no direct method for it). -/
def configureInteraction (c : ConditionForm) (b : CondBuilderState) : CondBuilderState :=
  let b1 := b.withSequenceIndex c.sequenceIndex
  let b2 := if c.canBeAutoCompleted.getD false then b1.autoComplete else b1
  if c.trackingCaption.getD "" ≠ "" then b2.withCaption (c.trackingCaption.getD "") else b2

/-- One step of the per-condition loop (`QuestBuilderForm.tsx` lines 303-360):
the conditions this fragment contributes to the draft.  Fetch and Elimination
qualify only with a non-empty item list, Interaction only with a truthy
`interactionObject`. -/
def stepCondition (c : ConditionForm) : List Condition :=
  match c.type with
  | CondType.Fetch =>
      if 0 < (c.items.getD []).length then
        [(configureFetch c (CondBuilderState.asFetch {})).build]
      else []
  | CondType.Elimination =>
      if 0 < (c.items.getD []).length then
        [(configureElimination c (CondBuilderState.asElimination {})).build]
      else []
  | CondType.Interaction =>
      if c.interactionObject.getD "" ≠ "" then
        [(configureInteraction c (CondBuilderState.asInteraction {})).build]
      else []

/-- The default condition added when no condition fragments are provided
(`QuestBuilderForm.tsx` lines 363-365:
`addFetchCondition(c => c.withSequenceIndex(0).requireItems(["Apple"], 1))`). -/
def defaultFetchCondition : Condition :=
  ((CondBuilderState.asFetch {}).withSequenceIndex 0 |>.requireItems ["Apple"] 1).build

/-- The condition sequence of the assembled draft (`QuestBuilderForm.tsx` lines
302-366): when the fragment list is non-empty, the per-fragment loop; otherwise
the single default Fetch condition. -/
def assembleConditions (conds : Option (List ConditionForm)) : List Condition :=
  match conds with
  | some cs =>
      if 0 < cs.length then cs.foldl (fun acc c => acc ++ stepCondition c) []
      else [defaultFetchCondition]
  | none => [defaultFetchCondition]

/-- The draft assembled by the transform before `build()` is invoked
(`QuestBuilderForm.tsx` lines 216-366): basic fields, the time limit only when
truthy and positive, one reward fragment per `hasAnything` reward form (in
order), and the condition sequence. -/
def assembleDraft (s : QuestFormData) : QuestDraft :=
  let d0 : QuestDraft := {}
  let d1 := QuestBuilder.withDescription
    (QuestBuilder.withTitle (QuestBuilder.withTier (QuestBuilder.withNPC d0 s.AssociatedNpc) s.Tier)
      s.Title) s.Description
  let d2 := match s.TimeLimitHours with
    | some v => if 0 < v then QuestBuilder.withTimeLimit d1 v else d1
    | none => d1
  let d3 := s.RewardPool.foldl (fun acc r =>
      if hasAnything r then QuestBuilder.addReward acc (configureReward r) else acc) d2
  { d3 with Conditions := assembleConditions s.Conditions }

/-- The completion-checklist errors (`QuestBuilderForm.tsx` lines 195-206). -/
def completionErrors (s : QuestFormData) : List String :=
  (if s.Title = "" then ["Title is required"] else []) ++
  (if s.Description = "" then ["Description is required"] else []) ++
  (if s.RewardPool.length = 0 then ["At least one reward pool is required"] else [])

/-- The gate on attempting a build (`QuestBuilderForm.tsx` lines 209-213):
`Title && Description && RewardPool.length > 0`. -/
def buildGate (s : QuestFormData) : Bool :=
  s.Title ≠ "" && s.Description ≠ "" && decide (0 < s.RewardPool.length)

/-- `hasValidRewards` (`QuestBuilderForm.tsx` lines 291-298): some reward form
passes the same content test as `hasAnything`. -/
def hasValidRewards (s : QuestFormData) : Bool :=
  s.RewardPool.any hasAnything

/-- The Authoring-State Transform (`QuestBuilderForm.tsx` lines 193-398): the
completion checklist, the build gate, the content gate, and the Schema parse;
a thrown Schema error is caught and its single message appended. -/
def authoringTransform (s : QuestFormData) : QuestResult :=
  if buildGate s then
    if hasValidRewards s then
      match schemaParseDraft (assembleDraft s) with
      | Except.ok q => { quest := some q, errors := completionErrors s }
      | Except.error issues =>
          { quest := none, errors := completionErrors s ++ [zodErrorMessage issues] }
    else
      { quest := none, errors := completionErrors s ++
          ["At least one reward must have content (currency, skills, or trade deals)"] }
  else { quest := none, errors := completionErrors s }

/-- Whether the pipeline reaches the `Built` state of the spec's state machine
(§4.3): the build gate and content gate pass and the Schema parse is clean. -/
def reachedBuilt (s : QuestFormData) : Bool :=
  buildGate s && hasValidRewards s && (schemaIssues (assembleDraft s)).isEmpty

/-! ## Canonical JSON (spec §6) and the load path (`JsonPreview.tsx`) -/

/-- A JSON value (numbers restricted to the integers the engine handles). -/
inductive Json where
  | null
  | bool (b : Bool)
  | num (n : Int)
  | str (s : String)
  | arr (elems : List Json)
  | obj (fields : List (String × Json))

/-- Key lookup among the fields of a serialized object (first match). -/
def jget (fields : List (String × Json)) (k : String) : Option Json :=
  match fields with
  | [] => none
  | (k', v) :: rest => if k' = k then some v else jget rest k

/-- A field present exactly when its value is: `JSON.stringify` drops
`undefined`-valued fields.  Modelled from the spec (§6, canonical format). -/
def optField (k : String) (o : Option Json) : List (String × Json) :=
  match o with
  | some j => [(k, j)]
  | none => []

/-- Serialization of one fetch item.  Modelled from the spec: §6/§3, keys
mirror the field names. -/
def itemToJson (i : ConditionItemForm) : Json :=
  Json.obj (List.flatten [optField "Name" (some (Json.str i.name)),
    optField "Amount" (some (Json.num i.amount))])

/-- Serialization of one skill entry.  Modelled from the spec (§6/§3). -/
def skillToJson (sk : SkillReward) : Json :=
  Json.obj (List.flatten [optField "Skill" (some (Json.str sk.Skill)),
    optField "Experience" (some (Json.num sk.Experience))])

/-- Serialization of one trade deal.  Modelled from the spec (§6/§3). -/
def tradeDealToJson (td : TradeDeal) : Json :=
  Json.obj (List.flatten [optField "Item" (some (Json.str td.Item)),
    optField "Price" (td.Price.map Json.num),
    optField "Amount" (td.Amount.map Json.num),
    optField "Fame" (td.Fame.map Json.num),
    optField "AllowExcluded" (td.AllowExcluded.map Json.bool)])

/-- Serialization of one reward pool entry.  Modelled from the spec (§6/§3). -/
def rewardEntryToJson (rp : RewardPoolEntry) : Json :=
  Json.obj (List.flatten [optField "CurrencyNormal" (rp.CurrencyNormal.map Json.num),
    optField "CurrencyGold" (rp.CurrencyGold.map Json.num),
    optField "Fame" (rp.Fame.map Json.num),
    optField "Skills" (rp.Skills.map (fun l => Json.arr (l.map skillToJson))),
    optField "TradeDeals" (rp.TradeDeals.map (fun l => Json.arr (l.map tradeDealToJson)))])

/-- Serialization of one condition.  Modelled from the spec (§6/§3): the three
variants are told apart by which collection key they carry. -/
def conditionToJson (c : Condition) : Json :=
  match c with
  | Condition.fetch si auto cap items =>
      Json.obj (List.flatten [optField "SequenceIndex" (some (Json.num si)),
        optField "CanBeAutoCompleted" (some (Json.bool auto)),
        optField "TrackingCaption" (cap.map Json.str),
        optField "Items" (some (Json.arr (items.map itemToJson)))])
  | Condition.elimination si auto cap tc amt =>
      Json.obj (List.flatten [optField "SequenceIndex" (some (Json.num si)),
        optField "CanBeAutoCompleted" (some (Json.bool auto)),
        optField "TrackingCaption" (cap.map Json.str),
        optField "TargetCharacters" (some (Json.arr (tc.map Json.str))),
        optField "Amount" (amt.map Json.num)])
  | Condition.interaction si auto cap obj =>
      Json.obj (List.flatten [optField "SequenceIndex" (some (Json.num si)),
        optField "CanBeAutoCompleted" (some (Json.bool auto)),
        optField "TrackingCaption" (cap.map Json.str),
        optField "InteractionObject" (obj.map Json.str)])

/-- `JSON.stringify(quest, null, 2)` as a JSON value (`JsonPreview.tsx` line
17; the text layer is byte-identical per spec §6, so the exchanged artifact is
modelled as the JSON value itself).  Top-level keys verbatim from §6. -/
def questToJson (q : Quest) : Json :=
  Json.obj (List.flatten [optField "AssociatedNpc" (some (Json.str q.AssociatedNpc)),
    optField "Tier" (some (Json.num q.Tier)),
    optField "Title" (some (Json.str q.Title)),
    optField "Description" (some (Json.str q.Description)),
    optField "TimeLimitHours" (q.TimeLimitHours.map Json.num),
    optField "RewardPool" (some (Json.arr (q.RewardPool.map rewardEntryToJson))),
    optField "Conditions" (some (Json.arr (q.Conditions.map conditionToJson)))])

/-- Element-wise parse of an array: succeeds only when every element does
(the Schema rejects the array when any element is invalid). -/
def mapOpt (f : α → Option β) : List α → Option (List β)
  | [] => some []
  | x :: xs =>
      match f x, mapOpt f xs with
      | some y, some ys => some (y :: ys)
      | _, _ => none

/-- An optional numeric field: absent is fine, present must be a number
passing the check.  Modelled from the spec (§3 optional numeric constraints). -/
def optNumField (fields : List (String × Json)) (k : String) (ok : Int → Bool) :
    Option (Option Int) :=
  match jget fields k with
  | none => some none
  | some (Json.num v) => if ok v then some (some v) else none
  | some _ => none

/-- An optional string field. -/
def optStrField (fields : List (String × Json)) (k : String) : Option (Option String) :=
  match jget fields k with
  | none => some none
  | some (Json.str s) => some (some s)
  | some _ => none

/-- An optional boolean field. -/
def optBoolField (fields : List (String × Json)) (k : String) : Option (Option Bool) :=
  match jget fields k with
  | none => some none
  | some (Json.bool b) => some (some b)
  | some _ => none

/-- Parsing and validating one fetch item.  Modelled from the spec (§3). -/
def itemFromJson (j : Json) : Option ConditionItemForm :=
  match j with
  | Json.obj f =>
      match jget f "Name", jget f "Amount" with
      | some (Json.str n), some (Json.num a) =>
          if n ≠ "" && decide (1 ≤ a) then some (ConditionItemForm.mk n a) else none
      | _, _ => none
  | _ => none

/-- Parsing and validating one skill entry.  Modelled from the spec (§3). -/
def skillFromJson (j : Json) : Option SkillReward :=
  match j with
  | Json.obj f =>
      match jget f "Skill", jget f "Experience" with
      | some (Json.str n), some (Json.num e) =>
          if n ≠ "" && decide (1 ≤ e) then some (SkillReward.mk n e) else none
      | _, _ => none
  | _ => none

/-- Parsing and validating one trade deal.  Modelled from the spec (§3). -/
def tradeDealFromJson (j : Json) : Option TradeDeal :=
  match j with
  | Json.obj f =>
      match jget f "Item" with
      | some (Json.str n) =>
          if n ≠ "" then
            match optNumField f "Price" (fun v => decide (0 ≤ v)),
                optNumField f "Amount" (fun v => decide (1 ≤ v)),
                optNumField f "Fame" (fun v => decide (0 ≤ v)),
                optBoolField f "AllowExcluded" with
            | some p, some a, some fm, some ae =>
                some { Item := n, Price := p, Amount := a, Fame := fm, AllowExcluded := ae }
            | _, _, _, _ => none
          else none
      | _ => none
  | _ => none

/-- Parsing and validating one reward pool entry.  Modelled from the spec (§3). -/
def rewardEntryFromJson (j : Json) : Option RewardPoolEntry :=
  match j with
  | Json.obj f =>
      match optNumField f "CurrencyNormal" (fun v => decide (0 ≤ v)),
          optNumField f "CurrencyGold" (fun v => decide (0 ≤ v)),
          optNumField f "Fame" (fun v => decide (0 ≤ v)) with
      | some cn, some cg, some fm =>
          match jget f "Skills", jget f "TradeDeals" with
          | none, none =>
              some { CurrencyNormal := cn, CurrencyGold := cg, Fame := fm }
          | some (Json.arr l), none =>
              (mapOpt skillFromJson l).map (fun sks =>
                { CurrencyNormal := cn, CurrencyGold := cg, Fame := fm, Skills := some sks })
          | none, some (Json.arr l) =>
              (mapOpt tradeDealFromJson l).map (fun tds =>
                { CurrencyNormal := cn, CurrencyGold := cg, Fame := fm, TradeDeals := some tds })
          | some (Json.arr l1), some (Json.arr l2) =>
              match mapOpt skillFromJson l1, mapOpt tradeDealFromJson l2 with
              | some sks, some tds =>
                  some { CurrencyNormal := cn, CurrencyGold := cg, Fame := fm,
                         Skills := some sks, TradeDeals := some tds }
              | _, _ => none
          | _, _ => none
      | _, _, _ => none
  | _ => none

/-- Parsing and validating one condition, discriminated by which collection
key is present.  Modelled from the spec (§3). -/
def conditionFromJson (j : Json) : Option Condition :=
  match j with
  | Json.obj f =>
      match jget f "SequenceIndex", jget f "CanBeAutoCompleted", optStrField f "TrackingCaption" with
      | some (Json.num si), some (Json.bool auto), some cap =>
          if 0 ≤ si then
            match jget f "Items", jget f "TargetCharacters", jget f "InteractionObject" with
            | some (Json.arr l), none, none =>
                (mapOpt itemFromJson l).map (Condition.fetch si auto cap)
            | none, some (Json.arr l), none =>
                (mapOpt (fun e => match e with
                    | Json.str s => if s ≠ "" then some s else none
                    | _ => none) l).bind (fun tc =>
                  (optNumField f "Amount" (fun v => decide (1 ≤ v))).map
                    (Condition.elimination si auto cap tc))
            | none, none, some (Json.str s) =>
                if s ≠ "" then some (Condition.interaction si auto cap (some s)) else none
            | _, _, _ => none
          else none
      | _, _, _ => none
  | _ => none

/-- `QuestSchema.safeParse` on a parsed JSON value, as run by the load path
(`JsonPreview.tsx` lines 50-57).  Modelled from the spec (§3/§6): all Schema
constraints are re-checked and the validated Quest is returned. -/
def questFromJson (j : Json) : Option Quest :=
  match j with
  | Json.obj f =>
      match jget f "AssociatedNpc", jget f "Tier", jget f "Title", jget f "Description" with
      | some (Json.str npc), some (Json.num tier), some (Json.str title),
          some (Json.str descr) =>
          if tierValid tier && jsTrim title ≠ "" && jsTrim descr ≠ "" then
            match optNumField f "TimeLimitHours" (fun v => decide (0 < v)) with
            | some tl =>
                match jget f "RewardPool", jget f "Conditions" with
                | some (Json.arr rl), some (Json.arr cl) =>
                    match mapOpt rewardEntryFromJson rl, mapOpt conditionFromJson cl with
                    | some pool, some conds =>
                        if 0 < pool.length && 0 < conds.length then
                          some { AssociatedNpc := npc, Tier := tier, Title := title,
                                 Description := descr, TimeLimitHours := tl,
                                 RewardPool := pool, Conditions := conds }
                        else none
                    | _, _ => none
                | _, _ => none
            | none => none
          else none
      | _, _, _, _ => none
  | _ => none

/-- The load path (`handleLoadQuest`, `JsonPreview.tsx` lines 42-71):
`JSON.parse` of the pasted text followed by `QuestSchema.safeParse`; on
success the validated Quest is handed over.  The text layer is modelled as the
JSON value itself (spec §6: byte-identical canonical format). -/
def loadQuest (j : Json) : Option Quest := questFromJson j

/-! ## Pre-filled quest conversion (`QuestBuilderForm.tsx` lines 108-191) -/

/-- JavaScript `x || dflt` on an optional number (`0` is falsy). -/
def jsOrInt (o : Option Int) (dflt : Int) : Int :=
  match o with
  | some v => if v ≠ 0 then v else dflt
  | none => dflt

/-- JavaScript `x || dflt` on an optional string (`""` is falsy). -/
def jsOrStr (o : Option String) (dflt : String) : String :=
  match o with
  | some s => if s ≠ "" then s else dflt
  | none => dflt

/-- The library's `extractConditionItems`: the item names of a condition.
Modelled from the spec and the call site (the names, without the amounts —
the source comments that the amount `might need to be extracted`). -/
def extractConditionItems (c : Condition) : List String :=
  match c with
  | Condition.fetch _ _ _ items => items.map (fun i => i.name)
  | Condition.elimination _ _ _ tc _ => tc
  | Condition.interaction _ _ _ _ => []

/-- The library's `extractInteractionObjects`: the interaction objects of a
condition.  Modelled from the spec and the call site. -/
def extractInteractionObjects (c : Condition) : List String :=
  match c with
  | Condition.interaction _ _ _ obj => obj.toList
  | _ => []

/-- Conversion of one loaded condition to a condition fragment
(`QuestBuilderForm.tsx` lines 138-186).  Fetch items get the constant amount
`1`; Elimination targets get `condition.Amount || 1`; the Interaction object is
`extractInteractionObjects(condition)[0] || ""`. -/
def convertCondition (c : Condition) : ConditionForm :=
  match c with
  | Condition.fetch si auto cap _ =>
      { type := CondType.Fetch, sequenceIndex := si,
        items := some ((extractConditionItems c).map (fun n => ConditionItemForm.mk n 1)),
        canBeAutoCompleted := some auto, trackingCaption := some (jsOrStr cap "") }
  | Condition.elimination si auto cap tc amt =>
      { type := CondType.Elimination, sequenceIndex := si,
        items := some (tc.map (fun n => ConditionItemForm.mk n (jsOrInt amt 1))),
        canBeAutoCompleted := some auto, trackingCaption := some (jsOrStr cap "") }
  | Condition.interaction si auto cap _ =>
      { type := CondType.Interaction, sequenceIndex := si, items := some [],
        interactionObject := some ((extractInteractionObjects c).headD ""),
        canBeAutoCompleted := some auto, trackingCaption := some (jsOrStr cap "") }

/-- Conversion of one loaded reward pool entry to a reward fragment
(`QuestBuilderForm.tsx` lines 119-136). -/
def convertReward (rp : RewardPoolEntry) : RewardForm :=
  { currencyNormal := rp.CurrencyNormal, currencyGold := rp.CurrencyGold, fame := rp.Fame,
    skills := some ((rp.Skills.getD []).map (fun sk => SkillRewardForm.mk sk.Skill sk.Experience)),
    tradeDeals := some ((rp.TradeDeals.getD []).map (fun td =>
      TradeDealForm.mk td.Item td.Price td.Amount td.Fame td.AllowExcluded)) }

/-- The full pre-fill conversion of a loaded Quest to form data
(`QuestBuilderForm.tsx` lines 111-187, the `reset(formData)` payload). -/
def questToFormData (q : Quest) : QuestFormData :=
  { AssociatedNpc := jsOrStr (some q.AssociatedNpc) "Bartender"
    Tier := q.Tier
    Title := q.Title
    Description := q.Description
    TimeLimitHours := q.TimeLimitHours
    RewardPool := q.RewardPool.map convertReward
    Conditions := some (q.Conditions.map convertCondition) }

/-! ## Helper lemmas -/

theorem elemIssues_eq_nil (key : String) (valid : α → Bool) (msg : String) :
    ∀ (i : Nat) (l : List α), elemIssues key valid msg i l = [] ↔ l.all valid = true := by
  intro i l
  induction l generalizing i with
  | nil => simp [elemIssues]
  | cons x xs ih =>
      by_cases h : valid x
      · simp [elemIssues, h, ih]
      · simp [elemIssues, h]

theorem rewardFold_eq (l : List RewardForm) (d : QuestDraft) :
    l.foldl (fun acc r => if hasAnything r then QuestBuilder.addReward acc (configureReward r)
      else acc) d =
      { d with RewardPool := d.RewardPool ++ (l.filter hasAnything).map buildRewardFragment } := by
  induction l generalizing d with
  | nil => simp
  | cons r rs ih =>
      by_cases h : hasAnything r
      · rw [List.foldl_cons, if_pos h, ih]
        simp [QuestBuilder.addReward, buildRewardFragment, h, List.filter_cons]
      · rw [List.foldl_cons, if_neg (by simp [h]), ih]
        simp [h, List.filter_cons]

/-- Normal form of the assembled draft: the reward pool is exactly the
`hasAnything` fragments, in order, and the time limit is the positive
projection. -/
theorem assembleDraft_eq (s : QuestFormData) :
    assembleDraft s =
      { AssociatedNpc := some s.AssociatedNpc, Tier := some s.Tier, Title := some s.Title,
        Description := some s.Description, TimeLimitHours := projPos s.TimeLimitHours,
        RewardPool := (s.RewardPool.filter hasAnything).map buildRewardFragment,
        Conditions := assembleConditions s.Conditions } := by
  simp only [assembleDraft, rewardFold_eq]
  cases h : s.TimeLimitHours with
  | none =>
      simp [QuestBuilder.withNPC, QuestBuilder.withTier, QuestBuilder.withTitle,
        QuestBuilder.withDescription, projPos]
  | some v =>
      by_cases hv : (0 : Int) < v
      · simp [QuestBuilder.withNPC, QuestBuilder.withTier, QuestBuilder.withTitle,
          QuestBuilder.withDescription, QuestBuilder.withTimeLimit, projPos, hv]
      · simp [QuestBuilder.withNPC, QuestBuilder.withTier, QuestBuilder.withTitle,
          QuestBuilder.withDescription, projPos, hv]

theorem schemaParseDraft_ok_iff (d : QuestDraft) (q : Quest) :
    schemaParseDraft d = Except.ok q ↔ schemaIssues d = [] ∧ questOfDraft d = q := by
  unfold schemaParseDraft
  cases h : schemaIssues d with
  | nil => simp
  | cons i rest => simp

theorem completionErrors_of_gate (s : QuestFormData) (h : buildGate s = true) :
    completionErrors s = [] := by
  unfold buildGate at h
  simp only [Bool.and_eq_true, decide_eq_true_eq, ne_eq] at h
  obtain ⟨⟨h1, h2⟩, h3⟩ := h
  have h4 : s.RewardPool.length ≠ 0 := by omega
  unfold completionErrors
  simp [h1, h2, h4]

theorem completionErrors_ne_of_gate (s : QuestFormData) (h : buildGate s = false) :
    completionErrors s ≠ [] := by
  unfold completionErrors
  by_cases h1 : s.Title = ""
  · simp [h1]
  · by_cases h2 : s.Description = ""
    · simp [h1, h2]
    · have h3 : s.RewardPool.length = 0 := by
        by_contra hc
        have hg : buildGate s = true := by
          unfold buildGate
          simp [h1, h2]
          omega
        rw [hg] at h
        simp at h
      simp [h1, h2, h3]

/-- A built quest comes from a clean Schema parse of the assembled draft with
both gates passed. -/
theorem authoringTransform_quest_some (s : QuestFormData) (q : Quest)
    (h : (authoringTransform s).quest = some q) :
    buildGate s = true ∧ hasValidRewards s = true ∧
      schemaParseDraft (assembleDraft s) = Except.ok q := by
  unfold authoringTransform at h
  by_cases hg : buildGate s
  · by_cases hv : hasValidRewards s
    · rw [if_pos hg, if_pos hv] at h
      cases hp : schemaParseDraft (assembleDraft s) with
      | ok q0 =>
          rw [hp] at h
          simp at h
          exact ⟨hg, hv, congrArg Except.ok h⟩
      | error issues =>
          rw [hp] at h
          simp at h
    · rw [if_pos hg, if_neg (by simp [hv])] at h
      simp at h
  · rw [if_neg (by simp [hg])] at h
    simp at h

/-- A draft with no Schema issues yields a Quest satisfying every Schema
constraint. -/
theorem valid_of_issues_nil (d : QuestDraft) (h : schemaIssues d = []) :
    questValid (questOfDraft d) = true := by
  unfold schemaIssues at h
  simp only [List.append_eq_nil] at h
  obtain ⟨⟨⟨⟨⟨⟨⟨⟨hnpc, htier⟩, htitle⟩, hdesc⟩, htl⟩, hrp0⟩, hrp⟩, hc0⟩, hc⟩ := h
  unfold questValid questOfDraft
  cases dnpc : d.AssociatedNpc with
  | none => rw [dnpc] at hnpc; simp at hnpc
  | some npc =>
  cases dtier : d.Tier with
  | none => rw [dtier] at htier; simp at htier
  | some tier =>
  cases dtitle : d.Title with
  | none => rw [dtitle] at htitle; simp at htitle
  | some title =>
  cases ddesc : d.Description with
  | none => rw [ddesc] at hdesc; simp at hdesc
  | some descr =>
  rw [dtier] at htier
  rw [dtitle] at htitle
  rw [ddesc] at hdesc
  simp only at htier htitle hdesc
  have t1 : tierValid tier = true := by
    by_contra hx
    simp [hx] at htier
  have t2 : jsTrim title ≠ "" := by
    by_contra hx
    simp [hx] at htitle
  have t3 : jsTrim descr ≠ "" := by
    by_contra hx
    simp [hx] at hdesc
  have t4 : timeLimitValid d.TimeLimitHours = true := by
    by_contra hx
    simp [hx] at htl
  have t5 : d.RewardPool.length ≠ 0 := by
    by_contra hx
    simp [hx] at hrp0
  have t6 : d.RewardPool.all rewardEntryValid = true :=
    (elemIssues_eq_nil _ _ _ 0 _).mp hrp
  have t7 : d.Conditions.length ≠ 0 := by
    by_contra hx
    simp [hx] at hc0
  have t8 : d.Conditions.all conditionValid = true :=
    (elemIssues_eq_nil _ _ _ 0 _).mp hc
  simp [t1, t2, t3, t4, t6, t8]
  constructor
  · omega
  · omega

theorem valid_of_parse_ok (d : QuestDraft) (q : Quest)
    (h : schemaParseDraft d = Except.ok q) : questValid q = true := by
  obtain ⟨hnil, hq⟩ := (schemaParseDraft_ok_iff d q).mp h
  rw [← hq]
  exact valid_of_issues_nil d hnil

/-! ## Round-trip lemmas for the canonical JSON -/

theorem mapOpt_map_roundtrip {α β : Type} (toJ : α → β) (fromJ : β → Option α) (p : α → Bool)
    (hrt : ∀ x, p x = true → fromJ (toJ x) = some x) :
    ∀ l : List α, l.all p = true → mapOpt fromJ (l.map toJ) = some l := by
  intro l hall
  induction l with
  | nil => simp [mapOpt]
  | cons x xs ih =>
      simp only [List.all_cons, Bool.and_eq_true] at hall
      simp [mapOpt, hrt x hall.1, ih hall.2]

theorem itemFromJson_itemToJson (i : ConditionItemForm)
    (h : (i.name ≠ "" && decide (1 ≤ i.amount)) = true) :
    itemFromJson (itemToJson i) = some i := by
  simp only [Bool.and_eq_true, decide_eq_true_eq, ne_eq] at h
  simp [itemToJson, itemFromJson, jget, optField, h.1, h.2]

theorem skillFromJson_skillToJson (sk : SkillReward)
    (h : skillRewardValid sk = true) :
    skillFromJson (skillToJson sk) = some sk := by
  unfold skillRewardValid at h
  simp only [Bool.and_eq_true, decide_eq_true_eq, ne_eq] at h
  simp [skillToJson, skillFromJson, jget, optField, h.1, h.2]

theorem tradeDealFromJson_tradeDealToJson (td : TradeDeal)
    (h : tradeDealValid td = true) :
    tradeDealFromJson (tradeDealToJson td) = some td := by
  obtain ⟨item, price, amount, fame, ae⟩ := td
  unfold tradeDealValid at h
  simp only [Bool.and_eq_true, decide_eq_true_eq, ne_eq] at h
  obtain ⟨⟨⟨h1, h2⟩, h3⟩, h4⟩ := h
  cases price <;> cases amount <;> cases fame <;> cases ae <;>
    simp_all [tradeDealToJson, tradeDealFromJson, jget, optField, optNumField, optBoolField,
      optGE0, optGE1]

set_option maxHeartbeats 2000000 in
theorem rewardEntryFromJson_rewardEntryToJson (rp : RewardPoolEntry)
    (h : rewardEntryValid rp = true) :
    rewardEntryFromJson (rewardEntryToJson rp) = some rp := by
  obtain ⟨cn, cg, fm, sks, tds⟩ := rp
  unfold rewardEntryValid at h
  simp only [Bool.and_eq_true, decide_eq_true_eq, ne_eq] at h
  obtain ⟨⟨⟨⟨h1, h2⟩, h3⟩, h4⟩, h5⟩ := h
  have hs : ∀ l : List SkillReward, l.all skillRewardValid = true →
      mapOpt skillFromJson (l.map skillToJson) = some l :=
    mapOpt_map_roundtrip skillToJson skillFromJson skillRewardValid skillFromJson_skillToJson
  have ht : ∀ l : List TradeDeal, l.all tradeDealValid = true →
      mapOpt tradeDealFromJson (l.map tradeDealToJson) = some l :=
    mapOpt_map_roundtrip tradeDealToJson tradeDealFromJson tradeDealValid
      tradeDealFromJson_tradeDealToJson
  cases cn <;> cases cg <;> cases fm <;> cases sks <;> cases tds <;>
    simp_all [rewardEntryToJson, rewardEntryFromJson, jget, optField, optNumField, optGE0]

theorem conditionFromJson_conditionToJson (c : Condition) (h : conditionValid c = true) :
    conditionFromJson (conditionToJson c) = some c := by
  cases c with
  | fetch si auto cap items =>
      unfold conditionValid at h
      simp only [Bool.and_eq_true, decide_eq_true_eq] at h
      have hitems := mapOpt_map_roundtrip itemToJson itemFromJson _
        itemFromJson_itemToJson items h.2
      cases cap <;>
        simp_all [conditionToJson, conditionFromJson, jget, optField, optStrField]
  | elimination si auto cap tc amt =>
      unfold conditionValid at h
      simp only [Bool.and_eq_true, decide_eq_true_eq] at h
      have htc := mapOpt_map_roundtrip Json.str
        (fun e => match e with
          | Json.str s => if s ≠ "" then some s else none
          | _ => none)
        (fun s => s ≠ "")
        (fun s hs => by
          simp only [decide_eq_true_eq] at hs
          simp [hs]) tc (by simpa using h.1.2)
      cases cap <;> cases amt <;>
        simp_all [conditionToJson, conditionFromJson, jget, optField, optStrField,
          optNumField, optGE1]
  | interaction si auto cap obj =>
      unfold conditionValid at h
      simp only [Bool.and_eq_true, decide_eq_true_eq] at h
      cases obj with
      | none => simp [Option.getD] at h
      | some s =>
          cases cap <;>
            simp_all [conditionToJson, conditionFromJson, jget, optField, optStrField]

/-- A Quest meeting every Schema constraint survives serialization to the
canonical JSON and revalidation unchanged. -/
theorem questFromJson_questToJson (q : Quest) (h : questValid q = true) :
    questFromJson (questToJson q) = some q := by
  obtain ⟨npc, tier, title, descr, tl, pool, conds⟩ := q
  unfold questValid at h
  simp only [Bool.and_eq_true, decide_eq_true_eq, ne_eq] at h
  obtain ⟨⟨⟨⟨⟨⟨⟨h1, h2⟩, h3⟩, h4⟩, h5⟩, h6⟩, h7⟩, h8⟩ := h
  have hpool := mapOpt_map_roundtrip rewardEntryToJson rewardEntryFromJson _
    rewardEntryFromJson_rewardEntryToJson pool h6
  have hconds := mapOpt_map_roundtrip conditionToJson conditionFromJson _
    conditionFromJson_conditionToJson conds h8
  cases tl <;>
    simp_all [questToJson, questFromJson, jget, optField, optNumField, timeLimitValid]

/-! ## Reward-qualification predicates written from the specification -/

/-- The reward-qualification test exactly as the amended claim words it:
positive currency or fame, or a non-empty skills list, or a non-empty
trade-deals list (regardless of the entries' contents). -/
def rewardQualifiesAmended (r : RewardForm) : Prop :=
  0 < r.currencyNormal.getD 0 ∨ 0 < r.currencyGold.getD 0 ∨ 0 < r.fame.getD 0 ∨
    r.skills.getD [] ≠ [] ∨ r.tradeDeals.getD [] ≠ []

/-- The reward-qualification test as the original claim words it: positive
currency or fame, or a skill entry with positive experience, or a trade deal
with a non-blank item name. -/
def rewardQualifiesSpec (r : RewardForm) : Prop :=
  0 < r.currencyNormal.getD 0 ∨ 0 < r.currencyGold.getD 0 ∨ 0 < r.fame.getD 0 ∨
    (∃ sk ∈ r.skills.getD [], 0 < sk.experience) ∨
    (∃ td ∈ r.tradeDeals.getD [], jsTrim td.item ≠ "")

instance : DecidablePred rewardQualifiesAmended := fun r => by
  unfold rewardQualifiesAmended
  infer_instance

instance : DecidablePred rewardQualifiesSpec := fun r => by
  unfold rewardQualifiesSpec
  infer_instance

/-- A reward fragment with no content at all: no positive currency or fame
and empty (or absent) skill and trade-deal lists. -/
def rewardAllEmpty (r : RewardForm) : Bool :=
  !optPos r.currencyNormal && !optPos r.currencyGold && !optPos r.fame &&
    (r.skills.getD []).isEmpty && (r.tradeDeals.getD []).isEmpty

/-! ## Concrete states used by counterexamples and witnesses -/

/-- Valid basics, one qualifying reward, one Fetch condition fragment with an
empty item list: the condition list is non-empty but no fragment qualifies. -/
def stateNoQualifyingConditions : QuestFormData :=
  { AssociatedNpc := "Bartender", Tier := 1, Title := "T", Description := "D",
    RewardPool := [{ fame := some 10 }],
    Conditions := some [{ type := CondType.Fetch, sequenceIndex := 0, items := some [] }] }

/-- Valid basics, one qualifying reward, empty condition list. -/
def stateEmptyConditions : QuestFormData :=
  { AssociatedNpc := "Bartender", Tier := 1, Title := "Get Apples",
    Description := "Bring apples", RewardPool := [{ fame := some 10 }], Conditions := some [] }

/-- The quest built from `stateEmptyConditions`. -/
def questBuiltDefault : Quest :=
  { AssociatedNpc := "Bartender", Tier := 1, Title := "Get Apples",
    Description := "Bring apples", TimeLimitHours := none,
    RewardPool := [{ Fame := some 10 }], Conditions := [defaultFetchCondition] }

/-- A reward fragment whose only content is a skill entry with experience 0. -/
def zeroExpReward : RewardForm := { skills := some [SkillRewardForm.mk "Cooking" 0] }

/-- Valid basics and a single reward fragment holding only a zero-experience
skill. -/
def stateZeroExpSkill : QuestFormData :=
  { AssociatedNpc := "Bartender", Tier := 1, Title := "T", Description := "D",
    RewardPool := [zeroExpReward], Conditions := none }

/-- The quest built from `stateZeroExpSkill`: its reward pool holds one
entry with every facet empty. -/
def questZeroExpBuilt : Quest :=
  { AssociatedNpc := "Bartender", Tier := 1, Title := "T", Description := "D",
    TimeLimitHours := none, RewardPool := [RewardPoolEntry.mk none none none none none],
    Conditions := [defaultFetchCondition] }

/-- Title is a single blank: it passes the truthiness gate but fails the
Schema's trimmed-length check, and the unqualifying condition fragment leaves
the draft with zero conditions — two Schema issues at once. -/
def stateBlankTitle : QuestFormData :=
  { AssociatedNpc := "Bartender", Tier := 1, Title := " ", Description := "D",
    RewardPool := [{ fame := some 5 }],
    Conditions := some [{ type := CondType.Fetch, sequenceIndex := 0, items := some [] }] }

/-- Valid basics, one qualifying reward, one Interaction fragment with a
non-empty interaction object. -/
def stateInteractionDoor : QuestFormData :=
  { AssociatedNpc := "Bartender", Tier := 1, Title := "T", Description := "D",
    RewardPool := [{ fame := some 5 }],
    Conditions := some [{ type := CondType.Interaction, sequenceIndex := 0,
                          interactionObject := some "Door" }] }

/-- The Interaction fragment of `stateInteractionDoor` on its own. -/
def interactionDoorForm : ConditionForm :=
  { type := CondType.Interaction, sequenceIndex := 0, interactionObject := some "Door" }

/-- An authoring state missing title, description and any reward slot. -/
def stateAllMissing : QuestFormData :=
  { AssociatedNpc := "Bartender", Tier := 1, Title := "", Description := "", RewardPool := [] }

/-- A qualifying reward fragment (positive fame). -/
def fameReward : RewardForm := { fame := some 1 }

/-- A Fetch condition requiring five of an item. -/
def fetchFiveRocks : Condition := Condition.fetch 0 false none [ConditionItemForm.mk "Rock" 5]

/-- A valid quest whose Fetch condition requires an amount of five. -/
def questFetchFive : Quest :=
  { AssociatedNpc := "Bartender", Tier := 1, Title := "T", Description := "D",
    RewardPool := [{ Fame := some 1 }], Conditions := [fetchFiveRocks] }

/-! ## The claims -/

/-- C1 (amended): whenever the authoring state's condition list is empty or
absent and the transform builds a Quest, that Quest's condition sequence is
exactly the single default Fetch condition — sequence index 0, one item
("Apple") with amount 1.  (As originally stated — for every state with zero
qualifying conditions, including a non-empty list whose fragments all fail
qualification — the claim is false: see the counterexample, where no default
is supplied and no Quest is built.) -/
theorem C1_default_condition (s : QuestFormData) (q : Quest)
    (hc : s.Conditions = none ∨ s.Conditions = some [])
    (hq : (authoringTransform s).quest = some q) :
    q.Conditions = [defaultFetchCondition] ∧
      defaultFetchCondition =
        Condition.fetch 0 false none [ConditionItemForm.mk "Apple" 1] := by
  obtain ⟨_, _, hp⟩ := authoringTransform_quest_some s q hq
  obtain ⟨_, hqd⟩ := (schemaParseDraft_ok_iff _ _).mp hp
  constructor
  · rw [← hqd]
    show (assembleDraft s).Conditions = [defaultFetchCondition]
    rw [assembleDraft_eq]
    rcases hc with hc | hc <;> simp [hc, assembleConditions]
  · rfl

/-- C1, falsified as stated: a state with valid basics, one qualifying
reward, and a non-empty condition list none of whose fragments qualifies.
The draft gets zero conditions (no default is supplied) and no Quest is
built. -/
theorem C1_counterexample : buildGate stateNoQualifyingConditions = true ∧
    hasValidRewards stateNoQualifyingConditions = true ∧
    (assembleDraft stateNoQualifyingConditions).Conditions = [] ∧
    (authoringTransform stateNoQualifyingConditions).quest = none := by decide

theorem C1_witness : stateEmptyConditions.Conditions = some [] ∧
    (authoringTransform stateEmptyConditions).quest = some questBuiltDefault ∧
    questBuiltDefault.Conditions = [defaultFetchCondition] :=
  ⟨rfl, by decide,
    (C1_default_condition stateEmptyConditions questBuiltDefault (Or.inr rfl) (by decide)).1⟩

/-- C2 (amended): a reward fragment qualifies for inclusion iff it has a
positive currency or fame value, or a non-empty skills list, or a non-empty
trade-deals list — the entries' own contents (experience, item name) are not
consulted by the filter. -/
theorem C2_filter_iff (r : RewardForm) :
    hasAnything r = true ↔ rewardQualifiesAmended r := by
  obtain ⟨cn, cg, fm, sks, tds⟩ := r
  unfold hasAnything rewardQualifiesAmended optPos
  cases cn <;> cases cg <;> cases fm <;> cases sks <;> cases tds <;>
    simp [List.length_pos] <;> tauto

/-- C2, falsified as stated: a fragment whose only content is a skill with
experience 0 passes the code's filter although the claim's own predicate
rejects it. -/
theorem C2_counterexample : hasAnything zeroExpReward = true ∧
    ¬ rewardQualifiesSpec zeroExpReward := by decide

/-- C3 (amended): a fragment with no positive currency/fame and empty skill
and trade-deal lists never qualifies, and the built Quest's reward pool is
exactly the image of the qualifying fragments — but a fragment with a
zero-experience skill (or blank-item trade deal) does qualify and can
contribute an entry with every facet empty, so the original claim is false. -/
theorem C3_pruning (s : QuestFormData) (q : Quest) (r : RewardForm)
    (hq : (authoringTransform s).quest = some q) (hr : rewardAllEmpty r = true) :
    hasAnything r = false ∧
      q.RewardPool = (s.RewardPool.filter hasAnything).map buildRewardFragment := by
  constructor
  · unfold rewardAllEmpty at hr
    simp only [Bool.and_eq_true, Bool.not_eq_true'] at hr
    obtain ⟨⟨⟨⟨h1, h2⟩, h3⟩, h4⟩, h5⟩ := hr
    unfold hasAnything
    simp [h1, h2, h3, List.isEmpty_iff.mp h4, List.isEmpty_iff.mp h5]
  · obtain ⟨_, _, hp⟩ := authoringTransform_quest_some s q hq
    obtain ⟨_, hqd⟩ := (schemaParseDraft_ok_iff _ _).mp hp
    rw [← hqd]
    show (assembleDraft s).RewardPool = _
    rw [assembleDraft_eq]

/-- C3, falsified as stated: the quest built from a single zero-experience
skill fragment carries a reward pool entry with every facet empty. -/
theorem C3_counterexample :
    (authoringTransform stateZeroExpSkill).quest = some questZeroExpBuilt ∧
    questZeroExpBuilt.RewardPool = [RewardPoolEntry.mk none none none none none] := by decide

theorem C3_witness : rewardAllEmpty {} = true ∧
    hasAnything ({} : RewardForm) = false ∧
    questZeroExpBuilt.RewardPool =
      (stateZeroExpSkill.RewardPool.filter hasAnything).map buildRewardFragment :=
  ⟨by decide, (C3_pruning stateZeroExpSkill questZeroExpBuilt {} (by decide) (by decide)).1,
    (C3_pruning stateZeroExpSkill questZeroExpBuilt {} (by decide) (by decide)).2⟩

/-- C4: the transform's quest is non-null exactly when its error list is
empty and the pipeline reached the Built state (both gates passed and the
Schema parse was clean). -/
theorem C4_quest_iff_clean (s : QuestFormData) :
    (authoringTransform s).quest.isSome = true ↔
      ((authoringTransform s).errors = [] ∧ reachedBuilt s = true) := by
  unfold authoringTransform reachedBuilt
  by_cases hg : buildGate s
  · by_cases hv : hasValidRewards s
    · cases hp : schemaParseDraft (assembleDraft s) with
      | ok q =>
          obtain ⟨hnil, _⟩ := (schemaParseDraft_ok_iff _ _).mp hp
          simp [hg, hv, hp, completionErrors_of_gate s hg, hnil]
      | error issues =>
          have hne : schemaIssues (assembleDraft s) ≠ [] := by
            intro hx
            unfold schemaParseDraft at hp
            rw [hx] at hp
            simp at hp
          simp [hg, hv, hp, hne, completionErrors_of_gate s hg]
    · simp [hg, hv]
  · have := completionErrors_ne_of_gate s (by simp [hg])
    simp [hg, this]

/-- C5 (amended): on a Schema failure during an attempted build the
transform's error list holds exactly one entry — the thrown error's
aggregate message — while `QuestBuilder.validate` is the operation that
reports one `<path>: <message>` entry per violated constraint, in the
Schema's issue order.  The original claim attributed the per-constraint
format to the transform's error list, which the counterexample refutes. -/
theorem C5_schema_error_reporting (s : QuestFormData)
    (h1 : buildGate s = true) (h2 : hasValidRewards s = true)
    (h3 : schemaIssues (assembleDraft s) ≠ []) :
    (authoringTransform s).errors = [zodErrorMessage (schemaIssues (assembleDraft s))] ∧
      (QuestBuilder.validate (assembleDraft s)).2 =
        (schemaIssues (assembleDraft s)).map
          (fun i => String.intercalate "." i.path ++ ": " ++ i.message) := by
  have hp : schemaParseDraft (assembleDraft s) =
      Except.error (schemaIssues (assembleDraft s)) := by
    unfold schemaParseDraft
    cases hx : schemaIssues (assembleDraft s) with
    | nil => exact absurd hx h3
    | cons i rest => rfl
  constructor
  · unfold authoringTransform
    simp [h1, h2, hp, completionErrors_of_gate s h1]
  · unfold QuestBuilder.validate
    rw [hp]

/-- C5, falsified as stated: a build attempt violating two Schema
constraints (blank-after-trim title, zero conditions) surfaces a single
error entry, not one per violated constraint. -/
theorem C5_counterexample : (schemaIssues (assembleDraft stateBlankTitle)).length = 2 ∧
    (authoringTransform stateBlankTitle).errors.length = 1 := by decide

theorem C5_witness : buildGate stateBlankTitle = true ∧
    hasValidRewards stateBlankTitle = true ∧
    (authoringTransform stateBlankTitle).errors =
      [zodErrorMessage (schemaIssues (assembleDraft stateBlankTitle))] :=
  ⟨by decide, by decide,
    (C5_schema_error_reporting stateBlankTitle (by decide) (by decide) (by decide)).1⟩

/-- C6 (amended): an Interaction fragment contributes a condition iff its
`interactionObject` is truthy (non-empty), but the contributed condition
carries no interaction object at all — the transform never transfers the
fragment's `interactionObject` to the builder.  The original claim, that the
built condition carries the fragment's non-empty object string, is false. -/
theorem C6_interaction_object_dropped (c : ConditionForm)
    (h : c.type = CondType.Interaction) :
    stepCondition c =
      (if c.interactionObject.getD "" ≠ "" then
        [Condition.interaction c.sequenceIndex (c.canBeAutoCompleted.getD false)
          (if c.trackingCaption.getD "" ≠ "" then some (c.trackingCaption.getD "") else none)
          none]
      else []) := by
  unfold stepCondition
  rw [h]
  by_cases hobj : c.interactionObject.getD "" ≠ ""
  · rw [if_pos hobj, if_pos hobj]
    by_cases hauto : c.canBeAutoCompleted.getD false <;>
      by_cases hcap : c.trackingCaption.getD "" ≠ "" <;>
      simp [configureInteraction, CondBuilderState.asInteraction,
        CondBuilderState.withSequenceIndex, CondBuilderState.autoComplete,
        CondBuilderState.withCaption, CondBuilderState.build, hauto, hcap]
  · rw [if_neg hobj, if_neg hobj]

/-- C6, falsified as stated: the fragment carrying interaction object "Door"
is included, yet the assembled condition's interaction object is absent, and
the build fails the Schema's non-empty-object requirement, so no built Quest
ever carries it. -/
theorem C6_counterexample :
    (assembleDraft stateInteractionDoor).Conditions = [Condition.interaction 0 false none none] ∧
    (authoringTransform stateInteractionDoor).quest = none := by decide

theorem C6_witness :
    stepCondition interactionDoorForm = [Condition.interaction 0 false none none] :=
  (C6_interaction_object_dropped interactionDoorForm rfl).trans (by decide)

/-- C7: any Quest the transform produces survives serialization to the
canonical JSON and the load path (parse plus Schema revalidation) unchanged. -/
theorem C7_roundtrip (s : QuestFormData) (q : Quest)
    (hq : (authoringTransform s).quest = some q) :
    loadQuest (questToJson q) = some q := by
  obtain ⟨_, _, hp⟩ := authoringTransform_quest_some s q hq
  exact questFromJson_questToJson q (valid_of_parse_ok _ _ hp)

theorem C7_witness :
    (authoringTransform stateEmptyConditions).quest = some questBuiltDefault ∧
    loadQuest (questToJson questBuiltDefault) = some questBuiltDefault :=
  ⟨by decide, C7_roundtrip stateEmptyConditions questBuiltDefault (by decide)⟩

/-- C8: supplying a missing required field (title, description, or a
qualifying reward) never increases the completion-error count, a freshly
appended qualifying reward satisfies the reward-content requirement, and once
title, description and a qualifying reward are all present the build gate
opens with no completion errors reported. -/
theorem C8_monotonic_completeness (s : QuestFormData) (t d : String) (r : RewardForm)
    (ht : t ≠ "") (hd : d ≠ "") (hr : hasAnything r = true) :
    (completionErrors { s with Title := t }).length ≤ (completionErrors s).length ∧
    (completionErrors { s with Description := d }).length ≤ (completionErrors s).length ∧
    (completionErrors { s with RewardPool := s.RewardPool ++ [r] }).length ≤
      (completionErrors s).length ∧
    hasValidRewards { s with RewardPool := s.RewardPool ++ [r] } = true ∧
    (s.Title ≠ "" → s.Description ≠ "" → hasValidRewards s = true →
      buildGate s = true ∧ completionErrors s = []) := by
  have hlen : ∀ s0 : QuestFormData, (completionErrors s0).length =
      (if s0.Title = "" then 1 else 0) + (if s0.Description = "" then 1 else 0) +
        (if s0.RewardPool.length = 0 then 1 else 0) := by
    intro s0
    unfold completionErrors
    split_ifs <;> simp
  refine ⟨?_, ?_, ?_, ?_, ?_⟩
  · rw [hlen, hlen]
    simp [ht]
  · rw [hlen, hlen]
    simp [hd]
  · rw [hlen, hlen]
    simp [List.length_append]
  · unfold hasValidRewards
    simp [List.any_append, hr]
  · intro hT hD hA
    have hne : s.RewardPool ≠ [] := by
      intro h0
      unfold hasValidRewards at hA
      rw [h0] at hA
      simp at hA
    have hg : buildGate s = true := by
      unfold buildGate
      simp [hT, hD, List.length_pos.mpr hne]
    exact ⟨hg, completionErrors_of_gate s hg⟩

theorem C8_witness : ("T" : String) ≠ "" ∧
    (completionErrors { stateAllMissing with Title := "T" }).length ≤
      (completionErrors stateAllMissing).length :=
  ⟨by decide,
    (C8_monotonic_completeness stateAllMissing "T" "D" fameReward (by decide) (by decide)
      (by decide)).1⟩

/-- The skill fold of the reward configurator touches only the `Skills`
field. -/
theorem skillsFold_fields (l : List SkillRewardForm) :
    ∀ b : RewardPoolEntry,
      ((l.foldl (fun acc sk => if sk.skill ≠ "" && decide (0 < sk.experience) then
          RewardBuilderState.addSkill acc sk.skill sk.experience else acc) b).CurrencyNormal
        = b.CurrencyNormal) ∧
      ((l.foldl (fun acc sk => if sk.skill ≠ "" && decide (0 < sk.experience) then
          RewardBuilderState.addSkill acc sk.skill sk.experience else acc) b).CurrencyGold
        = b.CurrencyGold) ∧
      ((l.foldl (fun acc sk => if sk.skill ≠ "" && decide (0 < sk.experience) then
          RewardBuilderState.addSkill acc sk.skill sk.experience else acc) b).Fame = b.Fame) ∧
      ((l.foldl (fun acc sk => if sk.skill ≠ "" && decide (0 < sk.experience) then
          RewardBuilderState.addSkill acc sk.skill sk.experience else acc) b).TradeDeals
        = b.TradeDeals) := by
  induction l with
  | nil => intro b; simp
  | cons sk sks ih =>
      intro b
      rw [List.foldl_cons]
      by_cases h : (sk.skill ≠ "" && decide (0 < sk.experience)) = true
      · rw [if_pos h]
        have := ih (RewardBuilderState.addSkill b sk.skill sk.experience)
        simpa [RewardBuilderState.addSkill] using this
      · rw [if_neg h]
        exact ih b

/-- The trade-deal fold of the reward configurator touches only the
`TradeDeals` field. -/
theorem tradesFold_fields (l : List TradeDealForm) :
    ∀ b : RewardPoolEntry,
      ((l.foldl (fun acc td => if jsTrim td.item ≠ "" then
          RewardBuilderState.addTradeDeal acc td.item (projPos td.price) (projPos td.amount)
            (projTradeFame td.fame) td.allowExcluded else acc) b).CurrencyNormal
        = b.CurrencyNormal) ∧
      ((l.foldl (fun acc td => if jsTrim td.item ≠ "" then
          RewardBuilderState.addTradeDeal acc td.item (projPos td.price) (projPos td.amount)
            (projTradeFame td.fame) td.allowExcluded else acc) b).CurrencyGold
        = b.CurrencyGold) ∧
      ((l.foldl (fun acc td => if jsTrim td.item ≠ "" then
          RewardBuilderState.addTradeDeal acc td.item (projPos td.price) (projPos td.amount)
            (projTradeFame td.fame) td.allowExcluded else acc) b).Fame = b.Fame) ∧
      ((l.foldl (fun acc td => if jsTrim td.item ≠ "" then
          RewardBuilderState.addTradeDeal acc td.item (projPos td.price) (projPos td.amount)
            (projTradeFame td.fame) td.allowExcluded else acc) b).Skills = b.Skills) := by
  induction l with
  | nil => intro b; simp
  | cons td tds ih =>
      intro b
      rw [List.foldl_cons]
      by_cases h : jsTrim td.item ≠ ""
      · rw [if_pos h]
        have := ih (RewardBuilderState.addTradeDeal b td.item (projPos td.price)
          (projPos td.amount) (projTradeFame td.fame) td.allowExcluded)
        simpa [RewardBuilderState.addTradeDeal] using this
      · rw [if_neg h]
        exact ih b

/-- C9: an optional numeric authoring field valued 0 (or absent) is omitted
from the built fragment — the draft's time limit, the fragment's currency and
fame values, and a trade deal's price/amount/fame all come out absent, never
0, when the authoring input was 0. -/
theorem C9_zero_is_absent (s : QuestFormData) (r : RewardForm) (item : String)
    (hi : jsTrim item ≠ "") :
    (assembleDraft { s with TimeLimitHours := some 0 }).TimeLimitHours = none ∧
    (assembleDraft { s with TimeLimitHours := none }).TimeLimitHours = none ∧
    (buildRewardFragment { r with currencyNormal := some 0 }).CurrencyNormal = none ∧
    (buildRewardFragment { r with currencyGold := some 0 }).CurrencyGold = none ∧
    (buildRewardFragment { r with fame := some 0 }).Fame = none ∧
    (buildRewardFragment
        (RewardForm.mk none none none none
          (some [TradeDealForm.mk item (some 0) (some 0) (some 0) none]))
      ).TradeDeals = some [TradeDeal.mk item none none none none] := by
  refine ⟨?_, ?_, ?_, ?_, ?_, ?_⟩
  · rw [assembleDraft_eq]
    simp [projPos]
  · rw [assembleDraft_eq]
    simp [projPos]
  · unfold buildRewardFragment configureReward
    rw [(tradesFold_fields _ _).1, (skillsFold_fields _ _).1]
    by_cases hc : hasCurrency { r with currencyNormal := some 0 } <;>
      simp [hc, RewardBuilderState.currency, projPos]
  · unfold buildRewardFragment configureReward
    rw [(tradesFold_fields _ _).2.1, (skillsFold_fields _ _).2.1]
    by_cases hc : hasCurrency { r with currencyGold := some 0 } <;>
      simp [hc, RewardBuilderState.currency, projPos]
  · unfold buildRewardFragment configureReward
    rw [(tradesFold_fields _ _).2.2.1, (skillsFold_fields _ _).2.2.1]
    by_cases hc : hasCurrency { r with fame := some 0 } <;>
      simp [hc, RewardBuilderState.currency, projPos]
  · unfold buildRewardFragment configureReward
    simp [hasCurrency, optPos, RewardBuilderState.addTradeDeal, projPos, projTradeFame, hi]

theorem C9_witness : jsTrim "Rock" ≠ "" ∧
    (assembleDraft { stateAllMissing with TimeLimitHours := some 0 }).TimeLimitHours = none ∧
    (buildRewardFragment
        (RewardForm.mk none none none none
          (some [TradeDealForm.mk "Rock" (some 0) (some 0) (some 0) none]))
      ).TradeDeals = some [TradeDeal.mk "Rock" none none none none] :=
  ⟨by decide,
    (C9_zero_is_absent stateAllMissing {} "Rock" (by decide)).1,
    (C9_zero_is_absent stateAllMissing {} "Rock" (by decide)).2.2.2.2.2⟩

/-- C10: the pre-fill conversion rebuilds every Fetch condition's items with
the constant amount 1, whatever the loaded condition recorded — so a loaded
Quest whose Fetch condition requires a different amount does not round-trip
through the form. -/
theorem C10_prefill_fetch_amounts (q : Quest) (c : ConditionForm)
    (hc : c ∈ (questToFormData q).Conditions.getD [])
    (ht : c.type = CondType.Fetch) :
    ∀ it ∈ c.items.getD [], it.amount = 1 := by
  unfold questToFormData at hc
  simp only [Option.getD_some] at hc
  rcases List.mem_map.mp hc with ⟨c0, _, rfl⟩
  cases c0 with
  | fetch si auto cap items =>
      intro it hit
      simp only [convertCondition, extractConditionItems, Option.getD_some, List.map_map] at hit
      rcases List.mem_map.mp hit with ⟨i0, _, rfl⟩
      rfl
  | elimination si auto cap tc amt =>
      simp [convertCondition] at ht
  | interaction si auto cap obj =>
      simp [convertCondition] at ht

theorem C10_witness :
    (convertCondition fetchFiveRocks).items.getD [] = [ConditionItemForm.mk "Rock" 1] ∧
    (ConditionItemForm.mk "Rock" 1).amount = 1 :=
  ⟨by decide,
    C10_prefill_fetch_amounts questFetchFive (convertCondition fetchFiveRocks) (by decide) rfl
      (ConditionItemForm.mk "Rock" 1) (by decide)⟩
